import Mathlib

/-!
Verification of the scorecard repository's scoring and aggregation engine.

The development shallowly embeds the scoring code of
`src/data-ingestion/new_ingestor.py` (function `calculate_final_score` and
its helpers) and `src/api/api.py` (functions `calculate_max_score` and
`get_latest_scan`).  Python floats are modelled as rationals; the database
rows read by the code are passed explicitly as lists; filesystem and
database availability are passed as explicit flags / `Option` values.
-/

namespace Scorecard

/-- One row of `scan_metadata` as read by
`SELECT metric_key, metric_value, metric_source FROM scan_metadata`.
`metric_value` is stored as text (`str(value)` at insertion time). -/
structure MetricRecord where
  metric_key : String
  metric_value : String
  metric_source : String
deriving DecidableEq

/-- One entry of the `metrics` list of the scoring configuration.
`source`, `key`, `weight` and `type` are accessed with mandatory
indexing (`metric_def['source']`, ...) by the ingestor, so they are
mandatory fields; `scale_factor`, `max_score` and `base_max_value` are
accessed with `.get(..., default)` and are optional. -/
structure MetricDef where
  source : String
  key : String
  weight : ℚ
  type : String
  scale_factor : Option ℚ
  max_score : Option ℚ
  base_max_value : Option ℚ
deriving DecidableEq

/-- The scoring configuration YAML document: top-level `description`,
`calculation_logic` and `metrics` keys, each possibly absent. -/
structure ScoringConfig where
  description : Option String
  calculation_logic : Option String
  metrics : Option (List MetricDef)
deriving DecidableEq

/-- Digits of a decimal literal, read left to right; `none` when a
non-digit character occurs.  The empty list yields `some 0` and callers
guard emptiness separately. -/
def digitsToNat (cs : List Char) : Option Nat :=
  cs.foldl
    (fun acc c =>
      match acc with
      | none => none
      | some n => if c.isDigit then some (n * 10 + (c.toNat - 48)) else none)
    (some 0)

/-- Split a character list at occurrences of the decimal point. -/
def splitOnDot : List Char → List (List Char)
  | [] => [[]]
  | c :: rest =>
    let r := splitOnDot rest
    if c = '.' then [] :: r
    else
      match r with
      | [] => [[c]]
      | h :: t => (c :: h) :: t

/-- Model of Python `float(...)` applied to the stored metric-value text,
restricted to plain signed decimal literals (`"6"`, `"-1"`, `"7.5"`,
`"1."`, `".5"`); any other text fails to parse, mirroring the
`except (ValueError, TypeError): pass` branch of `calculate_final_score`. -/
def parseValueChars (cs : List Char) : Option ℚ :=
  let signed : ℚ × List Char :=
    match cs with
    | '-' :: rest => (-1, rest)
    | '+' :: rest => (1, rest)
    | _ => (1, cs)
  match splitOnDot signed.2 with
  | [intPart] =>
    if intPart.isEmpty then none
    else (digitsToNat intPart).map (fun n => signed.1 * (n : ℚ))
  | [intPart, fracPart] =>
    if intPart.isEmpty ∧ fracPart.isEmpty then none
    else
      match digitsToNat intPart, digitsToNat fracPart with
      | some n, some m =>
        some (signed.1 * ((n : ℚ) + (m : ℚ) / (10 : ℚ) ^ fracPart.length))
      | _, _ => none
  | _ => none

/-- `float(value)` on a stored metric value. -/
def parseValue (s : String) : Option ℚ :=
  parseValueChars s.toList

/-- One iteration of the loop that fills `metrics_by_source`, observed
at lookup position `(src, k)`: a record whose value parses and whose
source and key match overwrites the current entry, any other record
leaves it unchanged. -/
def lookupStep (src k : String) (acc : Option ℚ) (r : MetricRecord) : Option ℚ :=
  match parseValue r.metric_value with
  | some v =>
    if r.metric_source = src ∧ r.metric_key = k then some v else acc
  | none => acc

/-- The `metrics_by_source` dictionary of `calculate_final_score`,
looked up at `(src, k)`: records are inserted in list order, unparseable
values are skipped (`except: pass`), and later inserts overwrite earlier
ones (Python dict assignment). -/
def lookupAux (records : List MetricRecord) (src k : String) : Option ℚ :=
  records.foldl (lookupStep src k) none

/-- `metrics_by_source.get(source, \x7b\x7d).get(key, -1)`. -/
def lookupRaw (records : List MetricRecord) (src k : String) : ℚ :=
  (lookupAux records src k).getD (-1)

/-- The per-iteration `metric_score` variable of `calculate_final_score`:
the if/elif chain on `metric_def['type']`.  Defaults mirror the source:
`scale_factor` defaults to 1, `max_score` defaults to 100 here. -/
def metric_score (d : MetricDef) (raw_value : ℚ) : ℚ :=
  if d.type = "direct" then raw_value
  else if d.type = "direct_scaled" then raw_value * d.scale_factor.getD 1
  else if d.type = "inverted_scaled" then
    max 0 (d.max_score.getD 100 - raw_value * d.scale_factor.getD 1)
  else if d.type = "inverted_percentage" then d.max_score.getD 100 - raw_value
  else 0

/-- One iteration of the scoring loop of `calculate_final_score`:
a definition whose looked-up raw value is the sentinel `-1` is skipped
entirely (`continue`), any other definition adds
`metric_score * weight` to `total_score` and `weight` to
`total_weight`. -/
def scoreStep (records : List MetricRecord) (acc : ℚ × ℚ) (d : MetricDef) : ℚ × ℚ :=
  let raw_value := lookupRaw records d.source d.key
  if raw_value = -1 then acc
  else (acc.1 + metric_score d raw_value * d.weight, acc.2 + d.weight)

/-- The accumulation loop of `calculate_final_score`: `total_score` and
`total_weight`, starting from `(0, 0)`. -/
def scoreAndWeight (records : List MetricRecord) (metrics_config : List MetricDef) :
    ℚ × ℚ :=
  metrics_config.foldl (scoreStep records) (0, 0)

/-- Python `round(q, 2)` on the exact value: round half to even at the
second decimal place. -/
def roundHalfEven (q : ℚ) : ℤ :=
  if q - ⌊q⌋ < 1 / 2 then ⌊q⌋
  else if q - ⌊q⌋ > 1 / 2 then ⌊q⌋ + 1
  else if 2 ∣ ⌊q⌋ then ⌊q⌋ else ⌊q⌋ + 1

/-- Round to two decimal places, as `round(final_score, 2)` does. -/
def round2 (q : ℚ) : ℚ :=
  (roundHalfEven (q * 100) : ℚ) / 100

/-- The pure core of `calculate_final_score`: given the scan's metadata
rows and the configuration's `metrics` list, return the persisted score.
`if not records: return 0.0` precedes everything else; otherwise the
result is `round(total_score, 2)`. -/
def calculate_final_score (records : List MetricRecord)
    (metrics_config : List MetricDef) : ℚ :=
  if records = [] then 0
  else round2 (scoreAndWeight records metrics_config).1

/-- `calculate_final_score` with its effectful entry conditions made
explicit: a failed database connection returns `0.0`; with records
present, `load_scoring_config()` is called, which performs an unguarded
`open(...)` and therefore raises `FileNotFoundError` when the
configuration file is absent (`config_file = none`).  The ingestor reads
the metric list with `config.get('metrics', [])`. -/
def calculate_final_score_run (conn_ok : Bool) (records : List MetricRecord)
    (config_file : Option ScoringConfig) : Except String ℚ :=
  if conn_ok = false then Except.ok 0
  else if records = [] then Except.ok 0
  else
    match config_file with
    | none => Except.error "FileNotFoundError"
    | some config =>
      Except.ok (calculate_final_score records (config.metrics.getD []))

/-- The per-metric `metric_max_score` variable of `calculate_max_score`
in `src/api/api.py`.  Defaults mirror that source: `base_max_value`
defaults to 10, `scale_factor` to 1, and `max_score` to 0 here. -/
def metric_max_score (metric : MetricDef) : ℚ :=
  if metric.type = "direct_scaled" then
    metric.base_max_value.getD 10 * metric.scale_factor.getD 1 * metric.weight
  else if metric.type = "direct" then 100 * metric.weight
  else if metric.type = "inverted_scaled" ∨ metric.type = "inverted_percentage" then
    metric.max_score.getD 0 * metric.weight
  else 0

/-- `calculate_max_score(scoring_config)`: 0 when the configuration is
falsy or has no `metrics` key, otherwise the sum of the per-metric
maxima. -/
def calculate_max_score (scoring_config : Option ScoringConfig) : ℚ :=
  match scoring_config with
  | none => 0
  | some cfg =>
    match cfg.metrics with
    | none => 0
    | some metrics => metrics.foldl (fun acc m => acc + metric_max_score m) 0

/-- One row of `project_scans` as selected by the read endpoint. -/
structure ScanRow where
  scan_id : Nat
  project_name : String
  scan_date : Int
  final_score : Option ℚ
deriving DecidableEq

/-- Selection of the row with the greatest `scan_date` (`ORDER BY
scan_date DESC LIMIT 1`), one candidate row at a time.  Ties keep the
earlier row, one arbitrary resolution of the unspecified SQL tie
order. -/
def pickStep (best : Option ScanRow) (s : ScanRow) : Option ScanRow :=
  match best with
  | none => some s
  | some b => if b.scan_date < s.scan_date then some s else some b

/-- The first SQL query of `get_latest_scan`: filter the project's rows
to those with a non-null `final_score`, order by `scan_date` descending,
keep one. -/
def latest_scan_query (scans : List ScanRow) (project_name : String) :
    Option ScanRow :=
  (scans.filter
      (fun s => s.project_name == project_name && s.final_score.isSome)).foldl
    pickStep none

/-- The `scoring_formula` section of the response: full details when the
configuration loaded, the degraded error object otherwise. -/
inductive ScoringFormula where
  | details (description : Option String) (calculation_logic : Option String)
      (metrics : Option (List MetricDef))
  | configError
deriving DecidableEq

/-- The response body of `GET /scan/project_name` (the grouped
`metadata` section, which no claim concerns, is not modelled). -/
structure ScanView where
  scan_id : Nat
  project_name : String
  scan_date : Int
  final_score : Option ℚ
  max_score : ℚ
  scoring_formula : ScoringFormula
deriving DecidableEq

/-- Outcome of an endpoint call: a JSON body or an HTTPException. -/
inductive ApiResponse where
  | ok (view : ScanView)
  | httpError (status_code : Nat)
deriving DecidableEq

/-- `get_latest_scan(project_name)` from `src/api/api.py`: 500 when the
database connection fails, 404 when no scored scan exists, otherwise the
scan row enriched with `max_score` and `scoring_formula` (degraded with
`max_score = 0` when `load_scoring_config()` returned `None`). -/
def get_latest_scan (conn_ok : Bool) (scans : List ScanRow)
    (scoring_config : Option ScoringConfig) (project_name : String) :
    ApiResponse :=
  if conn_ok = false then ApiResponse.httpError 500
  else
    match latest_scan_query scans project_name with
    | none => ApiResponse.httpError 404
    | some s =>
      match scoring_config with
      | some cfg =>
        ApiResponse.ok
          ⟨s.scan_id, s.project_name, s.scan_date, s.final_score,
            calculate_max_score (some cfg),
            ScoringFormula.details cfg.description cfg.calculation_logic cfg.metrics⟩
      | none =>
        ApiResponse.ok
          ⟨s.scan_id, s.project_name, s.scan_date, s.final_score, 0,
            ScoringFormula.configError⟩

/-! Claim-side renderings of the specification's wording, used to compare
the code's behaviour against the spec for the refinement claims.  They
follow the spec's phrasing, not the code's shape. -/

/-- The value "found among the scan's parseable raw metrics" for a
`(src, k)` pair: the latest stored record for that pair whose text value
parses, if any. -/
def storedValue (records : List MetricRecord) (src k : String) : Option ℚ :=
  (records.reverse.find?
      (fun r =>
        r.metric_source == src && r.metric_key == k &&
          (parseValue r.metric_value).isSome)).bind
    (fun r => parseValue r.metric_value)

/-- The per-type contribution table of the spec, with the defaults the
code actually applies (`scale_factor` 1, `max_score` 100 on the actual
side). -/
def claimContribution (d : MetricDef) (raw : ℚ) : ℚ :=
  if d.type = "direct" then raw * d.weight
  else if d.type = "direct_scaled" then raw * d.scale_factor.getD 1 * d.weight
  else if d.type = "inverted_scaled" then
    max 0 (d.max_score.getD 100 - raw * d.scale_factor.getD 1) * d.weight
  else if d.type = "inverted_percentage" then
    (d.max_score.getD 100 - raw) * d.weight
  else 0

/-- The spec's total actual score before rounding: the sum over every
metric definition whose `(source, key)` is found among the scan's
parseable raw metrics — with parsed value other than the sentinel `-1`
— of its per-type contribution. -/
def claimTotal (records : List MetricRecord) (metrics_config : List MetricDef) : ℚ :=
  (metrics_config.map
      (fun d =>
        match storedValue records d.source d.key with
        | some v => if v = -1 then 0 else claimContribution d v
        | none => 0)).sum

/-! Concrete fixtures used by the scenario claim, the counterexamples
and the witnesses. -/

/-- The `direct_scaled` coverage metric of the spec's concrete scenario. -/
def covDef : MetricDef :=
  ⟨"sonarqube", "coverage", 2, "direct_scaled", some 1, none, some 10⟩

/-- The `inverted_percentage` overall-score metric of the spec's
concrete scenario. -/
def ossfDef : MetricDef :=
  ⟨"openssf", "overall_score", 1, "inverted_percentage", none, some 10, none⟩

/-- The stored raw metrics of the spec's concrete scenario. -/
def scenarioRecords : List MetricRecord :=
  [⟨"coverage", "7.5", "sonarqube"⟩, ⟨"overall_score", "6", "openssf"⟩]

/-- A `direct` definition with weight 1 over the coverage metric. -/
def directCovDef : MetricDef :=
  ⟨"sonarqube", "coverage", 1, "direct", none, none, none⟩

/-- A stored coverage record whose value parses to the sentinel `-1`. -/
def sentinelRecords : List MetricRecord :=
  [⟨"coverage", "-1", "sonarqube"⟩]

/-- An `inverted_percentage` definition with no `max_score` entry. -/
def noMaxDef : MetricDef :=
  ⟨"openssf", "overall_score", 1, "inverted_percentage", none, none, none⟩

/-- A stored overall-score record with value 6. -/
def sixRecords : List MetricRecord :=
  [⟨"overall_score", "6", "openssf"⟩]

/-- A `direct_scaled` definition with a negative scale factor. -/
def negScaleDef : MetricDef :=
  ⟨"sonarqube", "coverage", 1, "direct_scaled", some (-1), none, none⟩

end Scorecard

namespace Scorecard

/-! Helper lemmas about the loop bodies. -/

theorem lookupStep_of_unparsed {r : MetricRecord} (src k : String) (acc : Option ℚ)
    (h : parseValue r.metric_value = none) : lookupStep src k acc r = acc := by
  simp [lookupStep, h]

theorem lookupStep_of_notmatch {r : MetricRecord} {src k : String} (acc : Option ℚ)
    (h : ¬(r.metric_source = src ∧ r.metric_key = k)) :
    lookupStep src k acc r = acc := by
  unfold lookupStep
  cases hp : parseValue r.metric_value
  · rfl
  · simp [h]

theorem foldl_lookupStep_id {records : List MetricRecord} {src k : String}
    (h : ∀ r ∈ records, ∀ a, lookupStep src k a r = a) (acc : Option ℚ) :
    records.foldl (lookupStep src k) acc = acc := by
  induction records generalizing acc with
  | nil => rfl
  | cons r rs ih =>
    rw [List.foldl_cons, h r (by simp), ih fun x hx a => h x (by simp [hx]) a]

theorem lookupAux_eq_none {records : List MetricRecord} {src k : String}
    (h : ∀ r ∈ records, ¬(r.metric_source = src ∧ r.metric_key = k)) :
    lookupAux records src k = none :=
  foldl_lookupStep_id (fun r hr a => lookupStep_of_notmatch a (h r hr)) none

theorem storedValue_eq_lookupAux (records : List MetricRecord) (src k : String) :
    storedValue records src k = lookupAux records src k := by
  induction records using List.reverseRecOn with
  | nil => rfl
  | append_singleton rs r ih =>
    unfold storedValue lookupAux at ih ⊢
    rw [List.reverse_append, List.foldl_append]
    simp only [List.reverse_cons, List.reverse_nil, List.nil_append,
      List.singleton_append, List.find?_cons, List.foldl_cons, List.foldl_nil]
    by_cases hmatch : r.metric_source = src ∧ r.metric_key = k
    · cases hp : parseValue r.metric_value with
      | none =>
        rw [lookupStep_of_unparsed src k _ hp]
        simp [hmatch.1, hmatch.2, hp]
        exact ih
      | some v =>
        simp [hmatch.1, hmatch.2, hp, lookupStep]
    · have hpred :
          (r.metric_source == src && r.metric_key == k &&
            (parseValue r.metric_value).isSome) = false := by
        rcases not_and_or.mp hmatch with h1 | h1 <;>
          simp [Bool.and_eq_false_iff, beq_eq_false_iff_ne, h1]
      rw [lookupStep_of_notmatch _ hmatch]
      simp only [hpred]
      exact ih

end Scorecard

namespace Scorecard

/-- Per-definition contribution to `total_score`, as the loop computes it. -/
def defContribution (records : List MetricRecord) (d : MetricDef) : ℚ :=
  if lookupRaw records d.source d.key = -1 then 0
  else metric_score d (lookupRaw records d.source d.key) * d.weight

/-- Per-definition contribution to `total_weight`, as the loop computes it. -/
def defWeight (records : List MetricRecord) (d : MetricDef) : ℚ :=
  if lookupRaw records d.source d.key = -1 then 0 else d.weight

theorem foldl_scoreStep (records : List MetricRecord) (cfg : List MetricDef)
    (acc : ℚ × ℚ) :
    cfg.foldl (scoreStep records) acc =
      (acc.1 + (cfg.map (defContribution records)).sum,
        acc.2 + (cfg.map (defWeight records)).sum) := by
  induction cfg generalizing acc with
  | nil => simp
  | cons d ds ih =>
    rw [List.foldl_cons, ih]
    unfold scoreStep defContribution defWeight
    by_cases hd : lookupRaw records d.source d.key = -1
    · simp [hd]
    · simp [hd, Prod.ext_iff]
      constructor <;> ring

theorem scoreAndWeight_fst (records : List MetricRecord) (cfg : List MetricDef) :
    (scoreAndWeight records cfg).1 = (cfg.map (defContribution records)).sum := by
  unfold scoreAndWeight
  rw [foldl_scoreStep]
  simp

theorem scoreAndWeight_snd (records : List MetricRecord) (cfg : List MetricDef) :
    (scoreAndWeight records cfg).2 = (cfg.map (defWeight records)).sum := by
  unfold scoreAndWeight
  rw [foldl_scoreStep]
  simp

theorem scoreAndWeight_insert_skip (records : List MetricRecord)
    (l1 l2 : List MetricDef) (d : MetricDef)
    (h : lookupRaw records d.source d.key = -1) :
    scoreAndWeight records (l1 ++ d :: l2) = scoreAndWeight records (l1 ++ l2) := by
  unfold scoreAndWeight
  rw [List.foldl_append, List.foldl_append, List.foldl_cons]
  congr 1
  unfold scoreStep
  simp [h]

theorem scoreAndWeight_congr {rs1 rs2 : List MetricRecord} (cfg : List MetricDef)
    (h : ∀ src k, lookupRaw rs1 src k = lookupRaw rs2 src k) :
    scoreAndWeight rs1 cfg = scoreAndWeight rs2 cfg := by
  unfold scoreAndWeight
  have hstep : scoreStep rs1 = scoreStep rs2 := by
    funext acc d
    unfold scoreStep
    rw [h]
  rw [hstep]

theorem foldl_max_add (l : List MetricDef) (a : ℚ) :
    l.foldl (fun acc m => acc + metric_max_score m) a =
      a + (l.map metric_max_score).sum := by
  induction l generalizing a with
  | nil => simp
  | cons m ms ih =>
    rw [List.foldl_cons, ih]
    simp
    ring

theorem calculate_max_score_eq_sum (dsc cl : Option String) (ms : List MetricDef) :
    calculate_max_score (some ⟨dsc, cl, some ms⟩) = (ms.map metric_max_score).sum := by
  show ms.foldl (fun acc m => acc + metric_max_score m) 0 = _
  rw [foldl_max_add]
  simp

theorem round2_zero : round2 0 = 0 := by
  norm_num [round2, roundHalfEven]

theorem claimContribution_eq (d : MetricDef) (v : ℚ) :
    claimContribution d v = metric_score d v * d.weight := by
  unfold claimContribution metric_score
  split_ifs <;> ring

end Scorecard

namespace Scorecard

theorem pick_from_some (l : List ScanRow) (b : ScanRow) :
    ∃ c, l.foldl pickStep (some b) = some c ∧ (c = b ∨ c ∈ l) ∧
      b.scan_date ≤ c.scan_date ∧ ∀ x ∈ l, x.scan_date ≤ c.scan_date := by
  induction l generalizing b with
  | nil => exact ⟨b, rfl, Or.inl rfl, le_refl _, by simp⟩
  | cons s t ih =>
    rw [List.foldl_cons]
    by_cases hlt : b.scan_date < s.scan_date
    · have hstep : pickStep (some b) s = some s := by simp [pickStep, hlt]
      rw [hstep]
      obtain ⟨c, hc, hmem, hle, hall⟩ := ih s
      refine ⟨c, hc, ?_, le_of_lt (lt_of_lt_of_le hlt hle), ?_⟩
      · rcases hmem with h | h
        · exact Or.inr (by simp [h])
        · exact Or.inr (by simp [h])
      · intro x hx
        rcases List.mem_cons.mp hx with h | h
        · rw [h]; exact hle
        · exact hall x h
    · have hstep : pickStep (some b) s = some b := by simp [pickStep, hlt]
      rw [hstep]
      obtain ⟨c, hc, hmem, hle, hall⟩ := ih b
      refine ⟨c, hc, ?_, hle, ?_⟩
      · rcases hmem with h | h
        · exact Or.inl h
        · exact Or.inr (by simp [h])
      · intro x hx
        rcases List.mem_cons.mp hx with h | h
        · rw [h]
          exact le_trans (le_of_not_lt hlt) hle
        · exact hall x h

theorem latest_scan_query_none_iff (scans : List ScanRow) (p : String) :
    latest_scan_query scans p = none ↔
      ∀ s ∈ scans, ¬(s.project_name = p ∧ s.final_score.isSome) := by
  unfold latest_scan_query
  cases hf : scans.filter (fun s => s.project_name == p && s.final_score.isSome) with
  | nil =>
    simp only [List.foldl_nil]
    constructor
    · intro _ s hs hcontra
      have : s ∈ scans.filter (fun s => s.project_name == p && s.final_score.isSome) := by
        rw [List.mem_filter]
        exact ⟨hs, by simp [hcontra.1, hcontra.2]⟩
      rw [hf] at this
      exact absurd this (List.not_mem_nil s)
    · intro _
      trivial
  | cons s t =>
    simp only [List.foldl_cons]
    have hstep : pickStep none s = some s := rfl
    rw [hstep]
    obtain ⟨c, hc, _, _, _⟩ := pick_from_some t s
    rw [hc]
    constructor
    · intro h
      exact absurd h (by simp)
    · intro h
      have hs : s ∈ scans.filter (fun s => s.project_name == p && s.final_score.isSome) := by
        rw [hf]
        simp
      rw [List.mem_filter] at hs
      have := h s hs.1
      simp only [Bool.and_eq_true, beq_iff_eq] at hs
      exact absurd ⟨hs.2.1, hs.2.2⟩ this

theorem latest_scan_query_some (scans : List ScanRow) (p : String) (b : ScanRow)
    (hq : latest_scan_query scans p = some b) :
    b ∈ scans ∧ b.project_name = p ∧ b.final_score.isSome ∧
      ∀ x ∈ scans, x.project_name = p → x.final_score.isSome →
        x.scan_date ≤ b.scan_date := by
  unfold latest_scan_query at hq
  cases hf : scans.filter (fun s => s.project_name == p && s.final_score.isSome) with
  | nil =>
    rw [hf] at hq
    exact absurd hq (by simp)
  | cons s t =>
    rw [hf] at hq
    simp only [List.foldl_cons] at hq
    have hstep : pickStep none s = some s := rfl
    rw [hstep] at hq
    obtain ⟨c, hc, hmem, hle, hall⟩ := pick_from_some t s
    rw [hc] at hq
    have hcb : c = b := Option.some.inj hq
    rw [hcb] at hmem hle hall
    have hbf : b ∈ scans.filter (fun s => s.project_name == p && s.final_score.isSome) := by
      rw [hf]
      rcases hmem with h | h
      · simp [h]
      · simp [h]

    rw [List.mem_filter] at hbf
    have hpred := hbf.2
    simp only [Bool.and_eq_true, beq_iff_eq] at hpred
    refine ⟨hbf.1, hpred.1, hpred.2, ?_⟩
    intro x hx hxp hxs
    have hxf : x ∈ scans.filter (fun s => s.project_name == p && s.final_score.isSome) := by
      rw [List.mem_filter]
      exact ⟨hx, by simp [hxp, hxs]⟩
    rw [hf] at hxf
    rcases List.mem_cons.mp hxf with h | h
    · rw [h]
      exact hle
    · exact hall x h

end Scorecard

namespace Scorecard

/-- C1: for a configuration with exactly the `direct_scaled` coverage
metric (weight 2, scale factor 1, base max 10) and the
`inverted_percentage` overall-score metric (weight 1, max score 10), and
raw metrics coverage=7.5 and overall_score=6, `calculate_final_score`
returns 19.0 and `calculate_max_score` returns 30. -/
theorem c1_concrete_scenario :
    calculate_final_score scenarioRecords [covDef, ossfDef] = 19 ∧
    calculate_max_score (some ⟨none, none, some [covDef, ossfDef]⟩) = 30 := by
  constructor
  · simp +decide [calculate_final_score, scoreAndWeight, scoreStep, lookupRaw, lookupAux,
      lookupStep, parseValue, parseValueChars, splitOnDot, digitsToNat, metric_score,
      covDef, ossfDef, scenarioRecords, round2, roundHalfEven]
    norm_num
  · simp +decide [calculate_max_score, metric_max_score, covDef, ossfDef]
    norm_num

/-- C7: when no metric records exist at all for a scan,
`calculate_final_score` returns the fixed fallback score 0.0 rather than
raising an error, whatever the connection state and configuration. -/
theorem c7_empty_records_fallback (conn_ok : Bool)
    (config_file : Option ScoringConfig) (metrics_config : List MetricDef) :
    calculate_final_score_run conn_ok [] config_file = Except.ok 0 ∧
    calculate_final_score [] metrics_config = 0 := by
  constructor
  · cases conn_ok <;> cases config_file <;> rfl
  · rfl

/-- C3 counterexample: for an `inverted_percentage` definition with
`max_score` absent and a stored raw value of 6, the actual-contribution
computation yields 100 - 6 = 94, not the 0 - 6 = -6 the claim's
`maxScore = 0` default would give. -/
theorem c3_counterexample :
    calculate_final_score sixRecords [noMaxDef] = 94 ∧
    round2 ((0 - 6) * 1) = -6 ∧
    (94 : ℚ) ≠ -6 := by
  refine ⟨?_, ?_, by norm_num⟩
  · simp +decide [calculate_final_score, scoreAndWeight, scoreStep, lookupRaw, lookupAux,
      lookupStep, parseValue, parseValueChars, splitOnDot, digitsToNat, metric_score,
      noMaxDef, sixRecords, round2, roundHalfEven]
    norm_num
  · norm_num [round2, roundHalfEven]

/-- C3 amended: when `max_score` is absent the theoretical-maximum
computation uses 0 but the actual-contribution computation uses 100;
when `scale_factor` is absent both computations use 1. -/
theorem c3_amended (d : MetricDef) (raw : ℚ) :
    (d.max_score = none →
      metric_score d raw = metric_score { d with max_score := some 100 } raw ∧
        metric_max_score d = metric_max_score { d with max_score := some 0 }) ∧
    (d.scale_factor = none →
      metric_score d raw = metric_score { d with scale_factor := some 1 } raw ∧
        metric_max_score d = metric_max_score { d with scale_factor := some 1 }) := by
  obtain ⟨src, k, w, t, sf, ms, bm⟩ := d
  constructor
  · intro h
    simp only at h
    subst h
    constructor <;> simp [metric_score, metric_max_score]
  · intro h
    simp only at h
    subst h
    constructor <;> simp [metric_score, metric_max_score]

/-- C3 amended witness at the concrete `inverted_percentage` definition
with both optional fields absent and raw value 6. -/
theorem c3_amended_witness :
    (metric_score noMaxDef 6 = metric_score { noMaxDef with max_score := some 100 } 6 ∧
      metric_max_score noMaxDef = metric_max_score { noMaxDef with max_score := some 0 }) ∧
    (metric_score noMaxDef 6 = metric_score { noMaxDef with scale_factor := some 1 } 6 ∧
      metric_max_score noMaxDef = metric_max_score { noMaxDef with scale_factor := some 1 }) :=
  ⟨(c3_amended noMaxDef 6).1 rfl, (c3_amended noMaxDef 6).2 rfl⟩

/-- C8 counterexample: a `direct_scaled` definition with scale factor
-1 has a strictly decreasing contribution in the raw value, refuting
monotonic non-decrease for arbitrary definitions. -/
theorem c8_counterexample :
    (0 : ℚ) < 1 ∧
    metric_score negScaleDef 1 * negScaleDef.weight <
      metric_score negScaleDef 0 * negScaleDef.weight := by
  constructor
  · norm_num
  · simp +decide [metric_score, negScaleDef]

/-- C8 amended: for definitions with non-negative weight (as the data
model requires) and non-negative scale factor, the contribution is
non-decreasing in the raw value for `direct` and `direct_scaled`,
non-increasing for `inverted_scaled` and `inverted_percentage`, and the
`inverted_scaled` contribution is clamped at 0 from below. -/
theorem c8_amended (d : MetricDef) (v1 v2 : ℚ) (hw : 0 ≤ d.weight)
    (hsf : 0 ≤ d.scale_factor.getD 1) (hv : v1 < v2) :
    ((d.type = "direct" ∨ d.type = "direct_scaled") →
      metric_score d v1 * d.weight ≤ metric_score d v2 * d.weight) ∧
    ((d.type = "inverted_scaled" ∨ d.type = "inverted_percentage") →
      metric_score d v2 * d.weight ≤ metric_score d v1 * d.weight) ∧
    (d.type = "inverted_scaled" → 0 ≤ metric_score d v1) := by
  refine ⟨?_, ?_, ?_⟩
  · rintro (ht | ht)
    · simp +decide [metric_score, ht]
      exact mul_le_mul_of_nonneg_right hv.le hw
    · simp +decide [metric_score, ht]
      exact mul_le_mul_of_nonneg_right
        (mul_le_mul_of_nonneg_right hv.le hsf) hw
  · rintro (ht | ht)
    · simp +decide [metric_score, ht]
      refine mul_le_mul_of_nonneg_right (max_le_max (le_refl 0) ?_) hw
      have := mul_le_mul_of_nonneg_right hv.le hsf
      linarith
    · simp +decide [metric_score, ht]
      refine mul_le_mul_of_nonneg_right ?_ hw
      linarith
  · intro ht
    simp +decide [metric_score, ht]

/-- C8 amended witness at the scenario's `direct_scaled` coverage
definition, raw values 0 < 1. -/
theorem c8_amended_witness :
    ((covDef.type = "direct" ∨ covDef.type = "direct_scaled") →
      metric_score covDef 0 * covDef.weight ≤ metric_score covDef 1 * covDef.weight) ∧
    ((covDef.type = "inverted_scaled" ∨ covDef.type = "inverted_percentage") →
      metric_score covDef 1 * covDef.weight ≤ metric_score covDef 0 * covDef.weight) ∧
    (covDef.type = "inverted_scaled" → 0 ≤ metric_score covDef 0) :=
  c8_amended covDef 0 1 (by norm_num [covDef]) (by norm_num [covDef]) (by norm_num)

end Scorecard

namespace Scorecard

/-- C2 counterexample: a stored coverage value of "-1" parses and is
found among the scan's parseable raw metrics, so the claim's sum gives
the `direct` contribution -1, yet the code's sentinel check skips it and
persists 0. -/
theorem c2_counterexample :
    calculate_final_score sentinelRecords [directCovDef] = 0 ∧
    storedValue sentinelRecords "sonarqube" "coverage" = some (-1) ∧
    round2 (claimContribution directCovDef (-1)) = -1 ∧
    (0 : ℚ) ≠ -1 := by
  refine ⟨?_, ?_, ?_, by norm_num⟩
  · simp +decide [calculate_final_score, scoreAndWeight, scoreStep, lookupRaw, lookupAux,
      lookupStep, parseValue, parseValueChars, splitOnDot, digitsToNat, metric_score,
      directCovDef, sentinelRecords, round2, roundHalfEven]
  · simp +decide [storedValue, parseValue, parseValueChars, splitOnDot, digitsToNat,
      sentinelRecords]
  · simp +decide [claimContribution, directCovDef]
    norm_num [round2, roundHalfEven]

/-- C2 amended: for every non-empty record set, the persisted score is
the two-decimal rounding of the sum, over definitions whose
`(source, key)` is found among the scan's parseable raw metrics with
parsed value other than -1, of the per-type contributions (with the
code's defaults: `scale_factor` 1, `max_score` 100); the theoretical
maximum is the unrounded sum of per-type maxima. -/
theorem c2_amended (records : List MetricRecord) (metrics_config : List MetricDef)
    (hne : records ≠ []) (dsc cl : Option String) :
    calculate_final_score records metrics_config =
      round2 (claimTotal records metrics_config) ∧
    calculate_max_score (some ⟨dsc, cl, some metrics_config⟩) =
      (metrics_config.map metric_max_score).sum := by
  refine ⟨?_, calculate_max_score_eq_sum dsc cl metrics_config⟩
  unfold calculate_final_score
  rw [if_neg hne]
  congr 1
  rw [scoreAndWeight_fst]
  unfold claimTotal
  congr 1
  apply List.map_congr_left
  intro d _
  rw [storedValue_eq_lookupAux]
  unfold defContribution lookupRaw
  cases h : lookupAux records d.source d.key with
  | none => simp
  | some v =>
    simp only [Option.getD_some]
    by_cases hv : v = -1
    · simp [hv]
    · simp [hv, claimContribution_eq]

/-- C2 amended witness at the spec's concrete scenario. -/
theorem c2_amended_witness :
    calculate_final_score scenarioRecords [covDef, ossfDef] =
      round2 (claimTotal scenarioRecords [covDef, ossfDef]) ∧
    calculate_max_score (some ⟨none, none, some [covDef, ossfDef]⟩) =
      ([covDef, ossfDef].map metric_max_score).sum :=
  c2_amended scenarioRecords [covDef, ossfDef] (by simp [scenarioRecords]) none none

/-- C4: the theoretical maximum is the data-independent sum of per-type
maxima over all definitions, and a definition with no matching stored
record contributes nothing to `total_score` or `total_weight` while
still adding its full per-type maximum to the theoretical maximum. -/
theorem c4_missing_metric (records : List MetricRecord) (l1 l2 : List MetricDef)
    (d : MetricDef) (dsc cl : Option String)
    (h : ∀ r ∈ records, ¬(r.metric_source = d.source ∧ r.metric_key = d.key)) :
    scoreAndWeight records (l1 ++ d :: l2) = scoreAndWeight records (l1 ++ l2) ∧
    calculate_max_score (some ⟨dsc, cl, some (l1 ++ d :: l2)⟩) =
      calculate_max_score (some ⟨dsc, cl, some (l1 ++ l2)⟩) + metric_max_score d ∧
    calculate_max_score (some ⟨dsc, cl, some (l1 ++ d :: l2)⟩) =
      ((l1 ++ d :: l2).map metric_max_score).sum := by
  refine ⟨?_, ?_, calculate_max_score_eq_sum dsc cl (l1 ++ d :: l2)⟩
  · apply scoreAndWeight_insert_skip
    unfold lookupRaw
    rw [lookupAux_eq_none h]
    rfl
  · rw [calculate_max_score_eq_sum, calculate_max_score_eq_sum]
    simp
    ring

/-- C4 witness: the coverage definition has no matching record among
the openssf-only records and is skipped by the scoring loop while
keeping its 20-point maximum. -/
theorem c4_witness :
    scoreAndWeight sixRecords ([ossfDef] ++ covDef :: []) =
      scoreAndWeight sixRecords ([ossfDef] ++ []) ∧
    calculate_max_score (some ⟨none, none, some ([ossfDef] ++ covDef :: [])⟩) =
      calculate_max_score (some ⟨none, none, some ([ossfDef] ++ [])⟩) +
        metric_max_score covDef ∧
    calculate_max_score (some ⟨none, none, some ([ossfDef] ++ covDef :: [])⟩) =
      (([ossfDef] ++ covDef :: []).map metric_max_score).sum :=
  c4_missing_metric sixRecords [ossfDef] [] covDef none none
    (by simp [sixRecords, covDef])

/-- C9: a stored record whose text value does not parse as a number is
inert: it changes no lookup, no score and no weight accounting, and the
final score is still produced (no parse failure propagates). -/
theorem c9_unparseable_inert (l1 l2 : List MetricRecord) (r : MetricRecord)
    (metrics_config : List MetricDef) (hv : parseValue r.metric_value = none) :
    (∀ src k, lookupRaw (l1 ++ r :: l2) src k = lookupRaw (l1 ++ l2) src k) ∧
    scoreAndWeight (l1 ++ r :: l2) metrics_config =
      scoreAndWeight (l1 ++ l2) metrics_config ∧
    calculate_final_score (l1 ++ r :: l2) metrics_config =
      round2 (scoreAndWeight (l1 ++ l2) metrics_config).1 := by
  have hlook : ∀ src k, lookupRaw (l1 ++ r :: l2) src k = lookupRaw (l1 ++ l2) src k := by
    intro src k
    unfold lookupRaw lookupAux
    rw [List.foldl_append, List.foldl_cons, lookupStep_of_unparsed src k _ hv,
      ← List.foldl_append]
  have hsw : scoreAndWeight (l1 ++ r :: l2) metrics_config =
      scoreAndWeight (l1 ++ l2) metrics_config :=
    scoreAndWeight_congr metrics_config hlook
  refine ⟨hlook, hsw, ?_⟩
  unfold calculate_final_score
  rw [if_neg (by simp), hsw]

/-- C9 witness: a non-numeric coverage value is skipped. -/
theorem c9_witness :
    (∀ src k, lookupRaw ([] ++ ⟨"coverage", "abc", "sonarqube"⟩ :: []) src k =
      lookupRaw ([] ++ []) src k) ∧
    scoreAndWeight ([] ++ ⟨"coverage", "abc", "sonarqube"⟩ :: []) [directCovDef] =
      scoreAndWeight ([] ++ []) [directCovDef] ∧
    calculate_final_score ([] ++ ⟨"coverage", "abc", "sonarqube"⟩ :: []) [directCovDef] =
      round2 (scoreAndWeight ([] ++ []) [directCovDef]).1 :=
  c9_unparseable_inert [] [] ⟨"coverage", "abc", "sonarqube"⟩ [directCovDef] (by decide)

/-- With unique `(source, key)` pairs per scan (the table's uniqueness
constraint), a matching record whose value parses determines the
dictionary entry that the scoring loop reads. -/
theorem lookupAux_of_uniq (records : List MetricRecord) (src k : String)
    (r : MetricRecord) (v : ℚ)
    (huniq : records.Pairwise
      (fun a b => ¬(a.metric_source = b.metric_source ∧ a.metric_key = b.metric_key)))
    (hr : r ∈ records) (hsrc : r.metric_source = src) (hkey : r.metric_key = k)
    (hv : parseValue r.metric_value = some v) :
    lookupAux records src k = some v := by
  induction records with
  | nil => cases hr
  | cons a rs ih =>
    rw [List.pairwise_cons] at huniq
    rcases List.mem_cons.mp hr with h | h
    · subst h
      unfold lookupAux
      rw [List.foldl_cons]
      have hstep : lookupStep src k none r = some v := by
        unfold lookupStep
        rw [hv]
        simp [hsrc, hkey]
      rw [hstep]
      apply foldl_lookupStep_id
      intro x hx a
      apply lookupStep_of_notmatch
      intro hcontra
      exact (huniq.1 x hx) ⟨hsrc.trans hcontra.1.symm, hkey.trans hcontra.2.symm⟩
    · unfold lookupAux
      rw [List.foldl_cons]
      have hstep : lookupStep src k none a = none := by
        apply lookupStep_of_notmatch
        intro hcontra
        exact (huniq.1 r h) ⟨hcontra.1.trans hsrc.symm, hcontra.2.trans hkey.symm⟩
      rw [hstep]
      exact ih huniq.2 h

end Scorecard

namespace Scorecard

/-- C10: a stored record whose value parses to exactly -1 makes the
scoring loop treat its definition as absent: under the table's
`(scan_id, metric_key, metric_source)` uniqueness constraint, the
definition contributes nothing to `total_score` and its weight is not
added to `total_weight`, although a matching record exists. -/
theorem c10_sentinel_treated_absent (records : List MetricRecord)
    (l1 l2 : List MetricDef) (d : MetricDef) (r : MetricRecord)
    (huniq : records.Pairwise
      (fun a b => ¬(a.metric_source = b.metric_source ∧ a.metric_key = b.metric_key)))
    (hr : r ∈ records) (hsrc : r.metric_source = d.source)
    (hkey : r.metric_key = d.key) (hv : parseValue r.metric_value = some (-1)) :
    scoreAndWeight records (l1 ++ d :: l2) = scoreAndWeight records (l1 ++ l2) ∧
    calculate_final_score records (l1 ++ d :: l2) =
      calculate_final_score records (l1 ++ l2) := by
  have hsw : scoreAndWeight records (l1 ++ d :: l2) = scoreAndWeight records (l1 ++ l2) := by
    apply scoreAndWeight_insert_skip
    unfold lookupRaw
    rw [lookupAux_of_uniq records d.source d.key r (-1) huniq hr hsrc hkey hv]
    rfl
  refine ⟨hsw, ?_⟩
  unfold calculate_final_score
  rw [hsw]

/-- C10 witness: the stored "-1" coverage value makes the `direct`
coverage definition contribute neither score nor weight. -/
theorem c10_witness :
    scoreAndWeight sentinelRecords ([] ++ directCovDef :: []) =
      scoreAndWeight sentinelRecords ([] ++ []) ∧
    calculate_final_score sentinelRecords ([] ++ directCovDef :: []) =
      calculate_final_score sentinelRecords ([] ++ []) :=
  c10_sentinel_treated_absent sentinelRecords [] [] directCovDef
    ⟨"coverage", "-1", "sonarqube"⟩ (by simp [sentinelRecords])
    (by simp [sentinelRecords]) rfl rfl
    (by simp +decide [parseValue, parseValueChars, splitOnDot, digitsToNat])

/-- C5 counterexample: with metric records present and the scoring
configuration file missing, the ingestion scoring path raises
`FileNotFoundError` instead of yielding the fallback zero score. -/
theorem c5_counterexample :
    calculate_final_score_run true sixRecords none = Except.error "FileNotFoundError" ∧
    Except.error "FileNotFoundError" ≠ (Except.ok 0 : Except String ℚ) := by
  constructor
  · rfl
  · simp

/-- C5 amended: when the scoring configuration cannot be loaded the read
endpoint still returns a successful response with the degraded
scoring-formula section and a max_score of zero; the ingestion scoring
path yields the fallback zero score when the database connection fails,
and with records present but no configuration file it raises
`FileNotFoundError` rather than returning the fallback. -/
theorem c5_amended (scans : List ScanRow) (p : String) (b : ScanRow)
    (hq : latest_scan_query scans p = some b) (records : List MetricRecord)
    (config_file : Option ScoringConfig) (hne : records ≠ []) :
    get_latest_scan true scans none p =
      ApiResponse.ok ⟨b.scan_id, b.project_name, b.scan_date, b.final_score, 0,
        ScoringFormula.configError⟩ ∧
    calculate_final_score_run false records config_file = Except.ok 0 ∧
    calculate_final_score_run true records none = Except.error "FileNotFoundError" := by
  refine ⟨?_, rfl, ?_⟩
  · simp [get_latest_scan, hq]
  · simp [calculate_final_score_run, hne]

/-- A project with one scored scan, for the read-path witnesses. -/
def scanRow0 : ScanRow := ⟨1, "proj", 5, some 3⟩

/-- The scan table holding only `scanRow0`. -/
def scans0 : List ScanRow := [scanRow0]

/-- C5 amended witness at the one-scan table and the openssf records. -/
theorem c5_amended_witness :
    get_latest_scan true scans0 none "proj" =
      ApiResponse.ok ⟨scanRow0.scan_id, scanRow0.project_name, scanRow0.scan_date,
        scanRow0.final_score, 0, ScoringFormula.configError⟩ ∧
    calculate_final_score_run false sixRecords none = Except.ok 0 ∧
    calculate_final_score_run true sixRecords none = Except.error "FileNotFoundError" :=
  c5_amended scans0 "proj" scanRow0 rfl sixRecords none (by simp [sixRecords])

/-- C6: the read endpoint returns 404 exactly when the project has no
scan with a non-null final score, and any returned view is built from a
scored scan of that project whose scan date is maximal among the
project's scored scans. -/
theorem c6_latest_scan_selection (scans : List ScanRow)
    (scoring_config : Option ScoringConfig) (p : String) :
    (get_latest_scan true scans scoring_config p = ApiResponse.httpError 404 ↔
      ∀ s ∈ scans, ¬(s.project_name = p ∧ s.final_score.isSome)) ∧
    (∀ v, get_latest_scan true scans scoring_config p = ApiResponse.ok v →
      ∃ b ∈ scans, b.project_name = p ∧ b.final_score.isSome ∧
        v.scan_id = b.scan_id ∧ v.project_name = b.project_name ∧
        v.scan_date = b.scan_date ∧ v.final_score = b.final_score ∧
        ∀ x ∈ scans, x.project_name = p → x.final_score.isSome →
          x.scan_date ≤ b.scan_date) := by
  cases hq : latest_scan_query scans p with
  | none =>
    constructor
    · constructor
      · intro _
        exact (latest_scan_query_none_iff scans p).mp hq
      · intro _
        simp [get_latest_scan, hq]
    · intro v hv
      simp [get_latest_scan, hq] at hv
  | some b =>
    obtain ⟨hbmem, hbp, hbs, hbmax⟩ := latest_scan_query_some scans p b hq
    constructor
    · constructor
      · intro h404
        exfalso
        cases scoring_config <;> simp [get_latest_scan, hq] at h404
      · intro hall
        exact absurd ⟨hbp, hbs⟩ (hall b hbmem)
    · intro v hv
      refine ⟨b, hbmem, hbp, hbs, ?_⟩
      cases scoring_config with
      | none =>
        simp [get_latest_scan, hq] at hv
        rw [← hv]
        exact ⟨rfl, rfl, rfl, rfl, hbmax⟩
      | some cfg =>
        simp [get_latest_scan, hq] at hv
        rw [← hv]
        exact ⟨rfl, rfl, rfl, rfl, hbmax⟩

/-- C6 witness at the one-scan table with no loaded configuration. -/
theorem c6_witness :
    ∃ b ∈ scans0, b.project_name = "proj" ∧ b.final_score.isSome ∧
      (⟨1, "proj", 5, some 3, 0, ScoringFormula.configError⟩ : ScanView).scan_id = b.scan_id ∧
      (⟨1, "proj", 5, some 3, 0, ScoringFormula.configError⟩ : ScanView).project_name = b.project_name ∧
      (⟨1, "proj", 5, some 3, 0, ScoringFormula.configError⟩ : ScanView).scan_date = b.scan_date ∧
      (⟨1, "proj", 5, some 3, 0, ScoringFormula.configError⟩ : ScanView).final_score = b.final_score ∧
      ∀ x ∈ scans0, x.project_name = "proj" → x.final_score.isSome →
        x.scan_date ≤ b.scan_date :=
  (c6_latest_scan_selection scans0 none "proj").2
    ⟨1, "proj", 5, some 3, 0, ScoringFormula.configError⟩ rfl

end Scorecard
